import Mathlib

/-!
# Verification of `coverage_comment/github.py`

A shallow embedding of the core of the coverage-comment action's GitHub
module: artifact download, PR resolution from a workflow run, self-identity
lookup with fallback, the comment upsert (find-or-create) protocol, output
file writing, and workflow-command escaping.

Modelling conventions:

* Python strings are Lean `String`s; the Python substring test `a in b` is
  the executable `isInfixB a.data b.data` below.
* The remote API is passed in as data: query results are lists, fallible
  calls are `Except ApiError _` values supplied by the environment.
* Side effects (log lines, HTTP calls issued) are returned as an explicit
  event trace, so "call X was never issued" is a statement about the trace.
* `ApiError.forbidden` models `github_client.Forbidden` (a 403); its `Nat`
  payload identifies the concrete exception object so that exception
  chaining ("raise ... from exc") is visible as payload preservation.
  `ApiError.other` models every other exception, which the code never
  catches.
-/

/-- Executable test that `pat` is a prefix of `l` (character lists). -/
def isPrefixOfB : List Char → List Char → Bool
  | [], _ => true
  | _ :: _, [] => false
  | a :: as, b :: bs => a == b && isPrefixOfB as bs

/-- Executable model of Python's substring operator `pat in l`:
`pat` occurs contiguously somewhere in `l`. -/
def isInfixB (pat : List Char) : List Char → Bool
  | [] => isPrefixOfB pat []
  | b :: bs => isPrefixOfB pat (b :: bs) || isInfixB pat bs

/-- Exceptions raised by the API gateway (`github_client`).  The code only
ever catches `forbidden`; everything else propagates. -/
inductive ApiError
  | forbidden (payload : Nat)
  | other (payload : Nat)
  deriving DecidableEq, Repr

/-- Constant `GITHUB_ACTIONS_LOGIN` from the source. -/
def GITHUB_ACTIONS_LOGIN : String := "github-actions[bot]"

/-! ## Identity Resolver: `get_my_login` -/

/-- Embedding of `get_my_login`: `userRes` is the outcome of `github.user.get()`.
A `Forbidden` failure is converted to the fixed fallback login; a success
returns the API-provided login; any other failure propagates. -/
def get_my_login (userRes : Except ApiError String) : Except ApiError String :=
  match userRes with
  | Except.error (ApiError.forbidden _) => Except.ok GITHUB_ACTIONS_LOGIN
  | Except.error e => Except.error e
  | Except.ok login => Except.ok login

/-! ## Artifact Locator: `download_artifact` -/

/-- An artifact descriptor as used by `download_artifact` (`name` and `id`
are the only fields the code reads). -/
structure Artifact where
  name : String
  id : Nat
  deriving DecidableEq, Repr

/-- Result of `download_artifact`: the file contents, or the `NoArtifact`
exception carrying its message. -/
inductive ArtifactResult
  | ok (content : String)
  | noArtifact (msg : String)
  deriving DecidableEq, Repr

/-- Embedding of `download_artifact`.  `artifacts` is the listing returned by
the API for `run_id`; `zipOpen aid fname` models fetching artifact `aid`'s
zip archive and calling `zipf.open(fname)` — `none` is the `KeyError` branch.
The first artifact whose name equals `artifact_name` (in listing order) is
selected, mirroring `next(iter(... if artifact.name == artifact_name))`. -/
def download_artifact (artifacts : List Artifact) (artifact_name : String)
    (run_id : Nat) (zipOpen : Nat → String → Option String)
    (filename : String) : ArtifactResult :=
  match artifacts.find? (fun a => a.name == artifact_name) with
  | none =>
      ArtifactResult.noArtifact
        ("Not artifact found with name " ++ artifact_name ++ " in run " ++ toString run_id)
  | some artifact =>
      match zipOpen artifact.id filename with
      | some content => ArtifactResult.ok content
      | none =>
          ArtifactResult.noArtifact
            ("File named " ++ filename ++ " not found in artifact " ++ artifact_name)

/-! ## PR Resolver: `get_pr_number_from_workflow_run` -/

/-- The fields of the workflow-run descriptor the code reads. -/
structure WorkflowRun where
  head_branch : String
  head_repo_full_name : String
  deriving DecidableEq, Repr

/-- A pull-request record; the code only reads `number`. -/
structure PullRequest where
  number : Nat
  deriving DecidableEq, Repr

/-- The `state` filter of the two pull-request queries. -/
inductive PullState
  | openState
  | allState
  deriving DecidableEq, Repr

/-- Observable events of the PR resolver: queries issued and log lines. -/
inductive PrEvent
  | query (st : PullState)
  | logInfo (msg : String)
  deriving DecidableEq, Repr

/-- Outcome of the PR resolver: a PR number or `CannotDeterminePR(msg)`. -/
inductive PrOutcome
  | found (n : Nat)
  | cannotDeterminePR (msg : String)
  deriving DecidableEq, Repr

/-- The `full_branch` string `f"{repo_name}:{branch}"` built by the code. -/
def full_branch (run : WorkflowRun) : String :=
  run.head_repo_full_name ++ ":" ++ run.head_branch

/-- Embedding of `get_pr_number_from_workflow_run`.  `get_prs st` is the
result list of the pulls query with `head=full_branch, sort=updated,
direction=desc, state=st`; `next(iter(...))` takes the head of the list, and
`StopIteration` on an empty list drives the open-to-all fallback. -/
def get_pr_number_from_workflow_run (run : WorkflowRun)
    (get_prs : PullState → List PullRequest) : List PrEvent × PrOutcome :=
  match get_prs PullState.openState with
  | pr :: _ => ([PrEvent.query PullState.openState], PrOutcome.found pr.number)
  | [] =>
      match get_prs PullState.allState with
      | pr :: _ =>
          ([PrEvent.query PullState.openState,
            PrEvent.logInfo
              ("No open PR found for branch " ++ full_branch run ++ ", defaulting to all PRs"),
            PrEvent.query PullState.allState],
           PrOutcome.found pr.number)
      | [] =>
          ([PrEvent.query PullState.openState,
            PrEvent.logInfo
              ("No open PR found for branch " ++ full_branch run ++ ", defaulting to all PRs"),
            PrEvent.query PullState.allState],
           PrOutcome.cannotDeterminePR ("No open PR found for branch " ++ full_branch run))

/-! ## Comment Upsert Engine: `post_comment` -/

/-- A comment record; the code reads `user.login`, `body` and `id`. -/
structure Comment where
  id : Nat
  author_login : String
  body : String
  deriving DecidableEq, Repr

/-- Observable events of `post_comment`: log lines and HTTP calls issued.
`deleteCall` is in the alphabet of calls the API supports so that "no
comment is ever deleted" is expressible; the code never issues one. -/
inductive CEvent
  | logInfo (msg : String)
  | patchCall (id : Nat) (body : String)
  | postCall (body : String)
  | deleteCall (id : Nat)
  deriving DecidableEq, Repr

/-- Termination status of `post_comment`: normal return, the
`CannotPostComment` exception chained from its cause, or an uncaught
exception propagating. -/
inductive Outcome
  | ok
  | cannotPostComment (cause : ApiError)
  | uncaught (e : ApiError)
  deriving DecidableEq, Repr

/-- The loop predicate `comment.user.login == me and marker in comment.body`. -/
def commentMatches (me marker : String) (c : Comment) : Bool :=
  c.author_login == me && isInfixB marker.data c.body.data

/-- The `try ... except Forbidden as exc: raise CannotPostComment from exc`
pattern wrapped around a call result: a `forbidden` failure becomes
`CannotPostComment` chained from it (payload preserved), any other failure
propagates uncaught. -/
def tryForbidden (r : Except ApiError Unit) : Outcome :=
  match r with
  | Except.ok _ => Outcome.ok
  | Except.error (ApiError.forbidden p) => Outcome.cannotPostComment (ApiError.forbidden p)
  | Except.error e => Outcome.uncaught e

/-- Embedding of `post_comment`.  The list argument is the comment listing
returned by `issue_comments_path.get()`; the recursion is the `for` loop,
the `[]` case its `else` clause.  `patchRes cid` is the outcome of
`comments_path(cid).patch(body=contents)` and `postRes` the outcome of
`issue_comments_path.post(body=contents)`. -/
def post_comment (me contents marker : String)
    (patchRes : Nat → Except ApiError Unit) (postRes : Except ApiError Unit) :
    List Comment → List CEvent × Outcome
  | [] =>
      ([CEvent.logInfo "Adding new comment", CEvent.postCall contents],
       tryForbidden postRes)
  | c :: rest =>
      if commentMatches me marker c then
        ([CEvent.logInfo "Update previous comment", CEvent.patchCall c.id contents],
         tryForbidden (patchRes c.id))
      else
        post_comment me contents marker patchRes postRes rest

/-! ## `set_output` -/

/-- Python `json.dumps` on a `bool`. -/
def json_dumps_bool (b : Bool) : String := if b then "true" else "false"

/-- The line written for one keyword argument: `f"{key}={json.dumps(value)}\n"`. -/
def output_line (kv : String × Bool) : String :=
  kv.1 ++ "=" ++ json_dumps_bool kv.2 ++ "\n"

/-- Embedding of `set_output` over an explicit filesystem (path to contents).
`kwargs` is the ordered keyword-argument mapping.  With `none` the body is
skipped entirely; with `some path` the file at `path` is opened in append
mode and one line per argument is written. -/
def set_output (github_output : Option String) (kwargs : List (String × Bool))
    (fs : String → String) : String → String :=
  match github_output with
  | none => fs
  | some path =>
      fun p => if p = path then fs p ++ String.join (kwargs.map output_line) else fs p

/-! ## Escaping: `escape_property` and `escape_data` -/

/-- Model of Python `s.replace(c, r)` for a single-character pattern `c`:
every occurrence of `c` is replaced by `r` (single characters have no
overlapping occurrences, so leftmost-nonoverlapping is exactly pointwise). -/
def pyReplaceChar (c : Char) (r : List Char) : List Char → List Char
  | [] => []
  | x :: xs => (if x = c then r else [x]) ++ pyReplaceChar c r xs

/-- The body of `escape_property` on character lists: the five chained
`replace` calls of the source, innermost (`%` -> `%25`) applied first. -/
def propChain (l : List Char) : List Char :=
  pyReplaceChar ',' ['%', '2', 'C']
    (pyReplaceChar ':' ['%', '3', 'A']
      (pyReplaceChar '\n' ['%', '0', 'A']
        (pyReplaceChar '\r' ['%', '0', 'D']
          (pyReplaceChar '%' ['%', '2', '5'] l))))

/-- The body of `escape_data` on character lists: the three chained
`replace` calls of the source, innermost (`%` -> `%25`) applied first. -/
def dataChain (l : List Char) : List Char :=
  pyReplaceChar '\n' ['%', '0', 'A']
    (pyReplaceChar '\r' ['%', '0', 'D']
      (pyReplaceChar '%' ['%', '2', '5'] l))

/-- Embedding of `escape_property`. -/
def escape_property (s : String) : String :=
  String.mk (propChain s.data)

/-- Embedding of `escape_data`. -/
def escape_data (s : String) : String :=
  String.mk (dataChain s.data)

/-- Single-pass character code equal to `escape_property` (proved below). -/
def encP (c : Char) : List Char :=
  if c = '%' then ['%', '2', '5']
  else if c = '\r' then ['%', '0', 'D']
  else if c = '\n' then ['%', '0', 'A']
  else if c = ':' then ['%', '3', 'A']
  else if c = ',' then ['%', '2', 'C']
  else [c]

/-- Single-pass character code equal to `escape_data` (proved below). -/
def encD (c : Char) : List Char :=
  if c = '%' then ['%', '2', '5']
  else if c = '\r' then ['%', '0', 'D']
  else if c = '\n' then ['%', '0', 'A']
  else [c]

/-- Concatenated single-pass encoding with code `enc`. -/
def encodeWith (enc : Char → List Char) : List Char → List Char
  | [] => []
  | c :: cs => enc c ++ encodeWith enc cs

/-- Boolean recogniser for comment-update calls in an event trace. -/
def isPatchEvent : CEvent → Bool
  | CEvent.patchCall _ _ => true
  | _ => false

/-- Concrete inputs used by the closed witness instances below,
mirroring the repository's own integration-test fixtures. -/
def demoComments : List Comment := [⟨456, "foo", "Hey! Hi! How are you? marker"⟩]

/-- Two comments by the same author both carrying the marker. -/
def demoComments2 : List Comment :=
  [⟨456, "foo", "Hey! Hi! How are you? marker"⟩, ⟨789, "foo", "yo marker"⟩]

/-- A patch endpoint that always succeeds. -/
def demoPatchOk : Nat → Except ApiError Unit := fun _ => Except.ok ()

/-- A patch endpoint that always answers 403. -/
def demoPatchForbidden : Nat → Except ApiError Unit :=
  fun _ => Except.error (ApiError.forbidden 7)

/-- The workflow run of the repository's integration tests. -/
def demoRun : WorkflowRun := ⟨"other", "someone/repo-name"⟩

/-- A pulls query with one open PR on the branch. -/
def demoPrsOpen : PullState → List PullRequest := fun _ => [⟨456⟩]

/-- A pulls query with no open PR but one PR over all states. -/
def demoPrsAllOnly : PullState → List PullRequest
  | PullState.openState => []
  | PullState.allState => [⟨456⟩]

/-! ## Supporting lemmas -/

/-- A successful `find?` splits the list at the first satisfying element:
everything before it fails the predicate. -/
theorem find?_first {α : Type} {p : α → Bool} :
    ∀ (l : List α) (a : α), l.find? p = some a →
      ∃ s t, l = s ++ a :: t ∧ ∀ x ∈ s, p x = false
  | [], a => by simp
  | b :: l, a => by
      intro h
      by_cases hb : p b
      · rw [List.find?_cons_of_pos _ hb] at h
        obtain rfl := Option.some.inj h
        exact ⟨[], l, rfl, by simp⟩
      · rw [List.find?_cons_of_neg _ hb] at h
        obtain ⟨s, t, rfl, hs⟩ := find?_first l a h
        refine ⟨b :: s, t, rfl, ?_⟩
        intro x hx
        rcases List.mem_cons.mp hx with rfl | hx
        · simpa using hb
        · exact hs x hx

/-- The result of `post_comment` is determined by the first comment matching
the author-and-marker predicate, when one exists. -/
theorem post_comment_eq_find (me contents marker : String)
    (patchRes : Nat → Except ApiError Unit) (postRes : Except ApiError Unit) :
    ∀ comments : List Comment,
      post_comment me contents marker patchRes postRes comments =
        match comments.find? (commentMatches me marker) with
        | some c =>
            ([CEvent.logInfo "Update previous comment", CEvent.patchCall c.id contents],
             tryForbidden (patchRes c.id))
        | none =>
            ([CEvent.logInfo "Adding new comment", CEvent.postCall contents],
             tryForbidden postRes)
  | [] => by simp [post_comment]
  | c :: rest => by
      by_cases h : commentMatches me marker c
      · rw [post_comment, if_pos h, List.find?_cons_of_pos _ h]
      · rw [post_comment, if_neg h, List.find?_cons_of_neg _ h,
          post_comment_eq_find me contents marker patchRes postRes rest]


/-! ## Claim theorems -/

/-- C1: if some comment in the list is authored by `me` and contains the
marker, `post_comment` issues no comment-creation call; and every
comment-update call it issues targets the id of a comment authored by `me`
whose body contains the marker — never a comment of a different author. -/
theorem post_comment_ownership (me contents marker : String)
    (patchRes : Nat → Except ApiError Unit) (postRes : Except ApiError Unit)
    (comments : List Comment) :
    ((∃ c ∈ comments, commentMatches me marker c = true) →
      ∀ body, CEvent.postCall body ∉
        (post_comment me contents marker patchRes postRes comments).1) ∧
    (∀ cid body, CEvent.patchCall cid body ∈
        (post_comment me contents marker patchRes postRes comments).1 →
      ∃ c ∈ comments, c.id = cid ∧ c.author_login = me ∧
        isInfixB marker.data c.body.data = true) := by
  rw [post_comment_eq_find]
  cases hf : comments.find? (commentMatches me marker) with
  | none =>
      constructor
      · rintro ⟨c, hc, hp⟩ body
        rw [List.find?_eq_none] at hf
        exact absurd hp (by simpa using hf c hc)
      · intro cid body hmem
        simp at hmem
  | some c =>
      constructor
      · intro _ body hmem
        simp at hmem
      · intro cid body hmem
        have hc : commentMatches me marker c = true := List.find?_some hf
        have hcm : c ∈ comments := List.mem_of_find?_eq_some hf
        simp only [List.mem_cons, List.mem_singleton] at hmem
        rcases hmem with h1 | h1 | h1
        · exact absurd h1 (by simp)
        · obtain ⟨rfl, rfl⟩ : cid = c.id ∧ body = contents := by
            simpa using h1
          refine ⟨c, hcm, rfl, ?_, ?_⟩
          · have := hc
            simp only [commentMatches, Bool.and_eq_true, beq_iff_eq] at this
            exact this.1
          · have := hc
            simp only [commentMatches, Bool.and_eq_true] at this
            exact this.2
        · exact absurd h1 (by simp)

/-- Closed instance of C1 at the repository's own test fixture. -/
theorem post_comment_ownership_witness :
    (CEvent.postCall "hi!" ∉
      (post_comment "foo" "hi!" "marker" demoPatchOk (Except.ok ()) demoComments).1) ∧
    (∃ c ∈ demoComments, c.id = 456 ∧ c.author_login = "foo" ∧
      isInfixB "marker".data c.body.data = true) :=
  ⟨(post_comment_ownership "foo" "hi!" "marker" demoPatchOk (Except.ok ()) demoComments).1
      ⟨⟨456, "foo", "Hey! Hi! How are you? marker"⟩, by decide, by decide⟩ "hi!",
   (post_comment_ownership "foo" "hi!" "marker" demoPatchOk (Except.ok ()) demoComments).2
      456 "hi!" (by decide)⟩

/-- C2: when the `state=open` query returns at least one pull request, the
resolver returns the first result's number and the `state=all` query is
never issued. -/
theorem pr_resolver_open_hit (run : WorkflowRun) (get_prs : PullState → List PullRequest)
    (pr : PullRequest) (rest : List PullRequest)
    (h : get_prs PullState.openState = pr :: rest) :
    (get_pr_number_from_workflow_run run get_prs).2 = PrOutcome.found pr.number ∧
      PrEvent.query PullState.allState ∉ (get_pr_number_from_workflow_run run get_prs).1 := by
  simp [get_pr_number_from_workflow_run, h]

/-- Closed instance of C2 at the repository's own test fixture. -/
theorem pr_resolver_open_hit_witness :
    (get_pr_number_from_workflow_run demoRun demoPrsOpen).2 = PrOutcome.found 456 ∧
      PrEvent.query PullState.allState ∉ (get_pr_number_from_workflow_run demoRun demoPrsOpen).1 :=
  pr_resolver_open_hit demoRun demoPrsOpen ⟨456⟩ [] rfl

/-- C3: when the `state=open` query returns no pull request, the resolver
logs the fallback notice and issues the `state=all` query; a nonempty second
result yields its first number, an empty one yields `CannotDeterminePR`. -/
theorem pr_resolver_fallback_all (run : WorkflowRun)
    (get_prs : PullState → List PullRequest)
    (h : get_prs PullState.openState = []) :
    PrEvent.logInfo ("No open PR found for branch " ++ full_branch run ++ ", defaulting to all PRs")
        ∈ (get_pr_number_from_workflow_run run get_prs).1 ∧
      PrEvent.query PullState.allState ∈ (get_pr_number_from_workflow_run run get_prs).1 ∧
      (∀ pr rest, get_prs PullState.allState = pr :: rest →
        (get_pr_number_from_workflow_run run get_prs).2 = PrOutcome.found pr.number) ∧
      (get_prs PullState.allState = [] →
        (get_pr_number_from_workflow_run run get_prs).2 =
          PrOutcome.cannotDeterminePR ("No open PR found for branch " ++ full_branch run)) := by
  cases hall : get_prs PullState.allState with
  | nil =>
      refine ⟨?_, ?_, ?_, ?_⟩ <;>
        simp [get_pr_number_from_workflow_run, h, hall]
  | cons pr rest =>
      refine ⟨?_, ?_, ?_, ?_⟩ <;>
        simp [get_pr_number_from_workflow_run, h, hall]

/-- Closed instance of C3 at the repository's own test fixture. -/
theorem pr_resolver_fallback_all_witness :
    PrEvent.logInfo ("No open PR found for branch " ++ full_branch demoRun ++ ", defaulting to all PRs")
        ∈ (get_pr_number_from_workflow_run demoRun demoPrsAllOnly).1 ∧
      PrEvent.query PullState.allState ∈ (get_pr_number_from_workflow_run demoRun demoPrsAllOnly).1 ∧
      (∀ pr rest, demoPrsAllOnly PullState.allState = pr :: rest →
        (get_pr_number_from_workflow_run demoRun demoPrsAllOnly).2 = PrOutcome.found pr.number) ∧
      (demoPrsAllOnly PullState.allState = [] →
        (get_pr_number_from_workflow_run demoRun demoPrsAllOnly).2 =
          PrOutcome.cannotDeterminePR ("No open PR found for branch " ++ full_branch demoRun)) :=
  pr_resolver_fallback_all demoRun demoPrsAllOnly rfl

/-- C4: a `forbidden` failure of the update call (when a matching comment was
found) or of the creation call (when none was) makes `post_comment` fail with
`CannotPostComment` chained from that very forbidden condition — the cause's
payload is preserved, never swallowed. -/
theorem post_comment_forbidden_surfaced (me contents marker : String)
    (patchRes : Nat → Except ApiError Unit) (postRes : Except ApiError Unit)
    (comments : List Comment) :
    (∀ c p, comments.find? (commentMatches me marker) = some c →
        patchRes c.id = Except.error (ApiError.forbidden p) →
        (post_comment me contents marker patchRes postRes comments).2 =
          Outcome.cannotPostComment (ApiError.forbidden p)) ∧
    (∀ p, comments.find? (commentMatches me marker) = none →
        postRes = Except.error (ApiError.forbidden p) →
        (post_comment me contents marker patchRes postRes comments).2 =
          Outcome.cannotPostComment (ApiError.forbidden p)) := by
  constructor
  · intro c p hf hp
    rw [post_comment_eq_find, hf]
    simp [tryForbidden, hp]
  · intro p hf hp
    rw [post_comment_eq_find, hf]
    simp [tryForbidden, hp]

/-- Closed instance of C4: a 403 on update and a 403 on creation both
surface as `CannotPostComment` with the cause preserved. -/
theorem post_comment_forbidden_surfaced_witness :
    (post_comment "foo" "hi!" "marker" demoPatchForbidden (Except.ok ()) demoComments).2 =
        Outcome.cannotPostComment (ApiError.forbidden 7) ∧
      (post_comment "foo" "hi!" "marker" demoPatchOk
          (Except.error (ApiError.forbidden 9)) []).2 =
        Outcome.cannotPostComment (ApiError.forbidden 9) :=
  ⟨(post_comment_forbidden_surfaced "foo" "hi!" "marker" demoPatchForbidden
        (Except.ok ()) demoComments).1 ⟨456, "foo", "Hey! Hi! How are you? marker"⟩ 7
      (by decide) rfl,
   (post_comment_forbidden_surfaced "foo" "hi!" "marker" demoPatchOk
        (Except.error (ApiError.forbidden 9)) []).2 9 rfl rfl⟩

/-- C5: `download_artifact` fails with `NoArtifact` exactly when no artifact
bears the requested name, or when the first so-named artifact's archive has
no entry named `filename`; otherwise it returns that entry's content.  The
selected artifact is the first name match in listing order. -/
theorem download_artifact_characterization (artifacts : List Artifact)
    (artifact_name : String) (run_id : Nat)
    (zipOpen : Nat → String → Option String) (filename : String) :
    (artifacts.find? (fun a => a.name == artifact_name) = none →
      download_artifact artifacts artifact_name run_id zipOpen filename =
        ArtifactResult.noArtifact
          ("Not artifact found with name " ++ artifact_name ++ " in run " ++ toString run_id)) ∧
    (∀ a, artifacts.find? (fun a => a.name == artifact_name) = some a →
      (∃ s t, artifacts = s ++ a :: t ∧ a.name = artifact_name ∧
        ∀ b ∈ s, b.name ≠ artifact_name) ∧
      (zipOpen a.id filename = none →
        download_artifact artifacts artifact_name run_id zipOpen filename =
          ArtifactResult.noArtifact
            ("File named " ++ filename ++ " not found in artifact " ++ artifact_name)) ∧
      (∀ content, zipOpen a.id filename = some content →
        download_artifact artifacts artifact_name run_id zipOpen filename =
          ArtifactResult.ok content)) := by
  constructor
  · intro hf
    simp [download_artifact, hf]
  · intro a hf
    refine ⟨?_, ?_, ?_⟩
    · have ha := List.find?_some hf
      obtain ⟨s, t, rfl, hs⟩ := find?_first artifacts a hf
      refine ⟨s, t, rfl, by simpa using ha, ?_⟩
      intro b hb
      have := hs b hb
      simpa using this
    · intro hz
      simp [download_artifact, hf, hz]
    · intro content hz
      simp [download_artifact, hf, hz]

/-- Closed instance of C5 at the repository's own test fixture: artifact
`foo` (id 789) is picked over `bar`, and both hit and miss of the zip entry
behave as characterized. -/
theorem download_artifact_characterization_witness :
    (∃ s t, [Artifact.mk "bar" 456, Artifact.mk "foo" 789] = s ++ Artifact.mk "foo" 789 :: t ∧
      (Artifact.mk "foo" 789).name = "foo" ∧ ∀ b ∈ s, b.name ≠ "foo") ∧
    download_artifact [Artifact.mk "bar" 456, Artifact.mk "foo" 789] "foo" 123
        (fun aid fname => if aid = 789 ∧ fname = "foo.txt" then some "bar" else none)
        "foo.txt" = ArtifactResult.ok "bar" ∧
    download_artifact [Artifact.mk "bar" 456, Artifact.mk "foo" 789] "foo" 123
        (fun aid fname => if aid = 789 ∧ fname = "foo.txt" then some "bar" else none)
        "bar.txt" =
      ArtifactResult.noArtifact "File named bar.txt not found in artifact foo" :=
  ⟨((download_artifact_characterization [Artifact.mk "bar" 456, Artifact.mk "foo" 789]
        "foo" 123 (fun aid fname => if aid = 789 ∧ fname = "foo.txt" then some "bar" else none)
        "foo.txt").2 (Artifact.mk "foo" 789) (by decide)).1,
   ((download_artifact_characterization [Artifact.mk "bar" 456, Artifact.mk "foo" 789]
        "foo" 123 (fun aid fname => if aid = 789 ∧ fname = "foo.txt" then some "bar" else none)
        "foo.txt").2 (Artifact.mk "foo" 789) (by decide)).2.2 "bar" (by decide),
   ((download_artifact_characterization [Artifact.mk "bar" 456, Artifact.mk "foo" 789]
        "foo" 123 (fun aid fname => if aid = 789 ∧ fname = "foo.txt" then some "bar" else none)
        "bar.txt").2 (Artifact.mk "foo" 789) (by decide)).2.1 (by decide)⟩

/-- C6: `get_my_login` returns the fixed fallback login on the forbidden
condition, returns a successful lookup's login verbatim, and propagates any
other failure unmodified; the three cases cover every possible lookup
outcome. -/
theorem get_my_login_characterization :
    (∀ p : Nat, get_my_login (Except.error (ApiError.forbidden p)) =
        Except.ok GITHUB_ACTIONS_LOGIN) ∧
      (∀ login : String, get_my_login (Except.ok login) = Except.ok login) ∧
      (∀ p : Nat, get_my_login (Except.error (ApiError.other p)) =
        Except.error (ApiError.other p)) ∧
      GITHUB_ACTIONS_LOGIN = "github-actions[bot]" :=
  ⟨fun _ => rfl, fun _ => rfl, fun _ => rfl, rfl⟩

/-- C7: with two or more comments matching author-and-marker, `post_comment`
issues exactly one update call, against the first match in list order, and
issues neither creation nor deletion calls — later duplicates are untouched. -/
theorem post_comment_first_match_wins (me contents marker : String)
    (patchRes : Nat → Except ApiError Unit) (postRes : Except ApiError Unit)
    (comments : List Comment)
    (h : 2 ≤ (comments.filter (commentMatches me marker)).length) :
    ∃ c, comments.find? (commentMatches me marker) = some c ∧
      (∃ s t, comments = s ++ c :: t ∧ ∀ x ∈ s, commentMatches me marker x = false) ∧
      (post_comment me contents marker patchRes postRes comments).1.filter isPatchEvent =
        [CEvent.patchCall c.id contents] ∧
      (∀ body, CEvent.postCall body ∉
        (post_comment me contents marker patchRes postRes comments).1) ∧
      (∀ cid, CEvent.deleteCall cid ∉
        (post_comment me contents marker patchRes postRes comments).1) := by
  have hne : comments.filter (commentMatches me marker) ≠ [] := by
    intro hnil
    rw [hnil] at h
    simp at h
  obtain ⟨x, hx⟩ := List.exists_mem_of_ne_nil _ hne
  have hxm := List.mem_filter.mp hx
  have hsome : (comments.find? (commentMatches me marker)).isSome :=
    List.find?_isSome.mpr ⟨x, hxm.1, hxm.2⟩
  obtain ⟨c, hc⟩ := Option.isSome_iff_exists.mp hsome
  refine ⟨c, hc, find?_first comments c hc, ?_, ?_, ?_⟩ <;>
    rw [post_comment_eq_find, hc] <;> simp [isPatchEvent]

/-- Closed instance of C7 on two marked comments by the same author: only
the first (id 456) is patched. -/
theorem post_comment_first_match_wins_witness :
    ∃ c, demoComments2.find? (commentMatches "foo" "marker") = some c ∧
      (∃ s t, demoComments2 = s ++ c :: t ∧
        ∀ x ∈ s, commentMatches "foo" "marker" x = false) ∧
      (post_comment "foo" "hi!" "marker" demoPatchOk (Except.ok ()) demoComments2).1.filter
          isPatchEvent = [CEvent.patchCall c.id "hi!"] ∧
      (∀ body, CEvent.postCall body ∉
        (post_comment "foo" "hi!" "marker" demoPatchOk (Except.ok ()) demoComments2).1) ∧
      (∀ cid, CEvent.deleteCall cid ∉
        (post_comment "foo" "hi!" "marker" demoPatchOk (Except.ok ()) demoComments2).1) :=
  post_comment_first_match_wins "foo" "hi!" "marker" demoPatchOk (Except.ok ())
    demoComments2 (by decide)

/-- C8 counterexample: at the repository's update-error fixture (one matching
comment, the patch endpoint answering 403), the "Update previous comment"
log is emitted even though the update call fails — so its emission is not
tied to success of the update, contrary to the claim. -/
theorem post_comment_update_log_on_failed_update :
    CEvent.logInfo "Update previous comment" ∈
        (post_comment "foo" "hi!" "marker" demoPatchForbidden (Except.ok ())
          demoComments).1 ∧
      (post_comment "foo" "hi!" "marker" demoPatchForbidden (Except.ok ())
          demoComments).2 = Outcome.cannotPostComment (ApiError.forbidden 7) := by
  decide

/-- C8 amended: when a matching comment is found, the "Update previous
comment" log is emitted at that point, before the update call and regardless
of its result; no creation call is issued; on success of the update the
invocation ends normally, and on a forbidden failure it fails with
`CannotPostComment` chained from that failure. -/
theorem post_comment_update_log_precedes_patch (me contents marker : String)
    (patchRes : Nat → Except ApiError Unit) (postRes : Except ApiError Unit)
    (comments : List Comment) (c : Comment)
    (h : comments.find? (commentMatches me marker) = some c) :
    (post_comment me contents marker patchRes postRes comments).1 =
        [CEvent.logInfo "Update previous comment", CEvent.patchCall c.id contents] ∧
      (∀ body, CEvent.postCall body ∉
        (post_comment me contents marker patchRes postRes comments).1) ∧
      (patchRes c.id = Except.ok () →
        (post_comment me contents marker patchRes postRes comments).2 = Outcome.ok) ∧
      (∀ p, patchRes c.id = Except.error (ApiError.forbidden p) →
        (post_comment me contents marker patchRes postRes comments).2 =
          Outcome.cannotPostComment (ApiError.forbidden p)) := by
  rw [post_comment_eq_find, h]
  refine ⟨rfl, by simp, ?_, ?_⟩
  · intro hp
    simp [tryForbidden, hp]
  · intro p hp
    simp [tryForbidden, hp]

/-- Closed instance of the amended C8 at the repository's update fixture. -/
theorem post_comment_update_log_precedes_patch_witness :
    (post_comment "foo" "hi!" "marker" demoPatchOk (Except.ok ()) demoComments).1 =
        [CEvent.logInfo "Update previous comment", CEvent.patchCall 456 "hi!"] ∧
      (∀ body, CEvent.postCall body ∉
        (post_comment "foo" "hi!" "marker" demoPatchOk (Except.ok ()) demoComments).1) ∧
      (demoPatchOk 456 = Except.ok () →
        (post_comment "foo" "hi!" "marker" demoPatchOk (Except.ok ()) demoComments).2 =
          Outcome.ok) ∧
      (∀ p, demoPatchOk 456 = Except.error (ApiError.forbidden p) →
        (post_comment "foo" "hi!" "marker" demoPatchOk (Except.ok ()) demoComments).2 =
          Outcome.cannotPostComment (ApiError.forbidden p)) :=
  post_comment_update_log_precedes_patch "foo" "hi!" "marker" demoPatchOk (Except.ok ())
    demoComments ⟨456, "foo", "Hey! Hi! How are you? marker"⟩ (by decide)

/-- C10: with `github_output = None` the body is skipped and the filesystem
is returned unchanged; with a path supplied, exactly the file at that path
grows by one `key=json(value)` line per keyword argument, and every other
path is untouched. -/
theorem set_output_none_is_noop :
    (∀ (kwargs : List (String × Bool)) (fs : String → String),
        set_output none kwargs fs = fs) ∧
      (∀ (path : String) (kwargs : List (String × Bool)) (fs : String → String),
        set_output (some path) kwargs fs path =
          fs path ++ String.join (kwargs.map output_line)) ∧
      (∀ (path : String) (kwargs : List (String × Bool)) (fs : String → String)
          (q : String), q ≠ path → set_output (some path) kwargs fs q = fs q) := by
  refine ⟨fun _ _ => rfl, fun path kwargs fs => by simp [set_output], ?_⟩
  intro path kwargs fs q hq
  simp [set_output, hq]

/-- Closed instance of C10: the no-op case, one appended line, and an
untouched sibling path. -/
theorem set_output_none_is_noop_witness :
    set_output none [("foo", true)] (fun _ => "") = (fun _ => "") ∧
      set_output (some "out") [("foo", true)] (fun _ => "") "out" = "foo=true\n" ∧
      set_output (some "out") [("foo", true)] (fun _ => "") "elsewhere" = "" :=
  ⟨set_output_none_is_noop.1 [("foo", true)] (fun _ => ""),
   set_output_none_is_noop.2.1 "out" [("foo", true)] (fun _ => ""),
   set_output_none_is_noop.2.2 "out" [("foo", true)] (fun _ => "") "elsewhere" (by decide)⟩

/-- Replacing a single character distributes over concatenation. -/
theorem pyReplaceChar_append (c : Char) (r : List Char) :
    ∀ x y : List Char, pyReplaceChar c r (x ++ y) = pyReplaceChar c r x ++ pyReplaceChar c r y
  | [], y => rfl
  | a :: x, y => by
      show (if a = c then r else [a]) ++ pyReplaceChar c r (x ++ y) =
        ((if a = c then r else [a]) ++ pyReplaceChar c r x) ++ pyReplaceChar c r y
      rw [pyReplaceChar_append c r x y, List.append_assoc]

/-- The `escape_property` replacement chain distributes over concatenation. -/
theorem propChain_append (x y : List Char) :
    propChain (x ++ y) = propChain x ++ propChain y := by
  simp only [propChain, pyReplaceChar_append]

/-- On a single character the `escape_property` chain is the code `encP`:
the replacement strings contain none of the characters replaced later in the
chain, so the sequential replaces never rewrite inserted text. -/
theorem propChain_single (a : Char) : propChain [a] = encP a := by
  by_cases h1 : a = '%'
  · subst h1; rfl
  by_cases h2 : a = '\r'
  · subst h2; rfl
  by_cases h3 : a = '\n'
  · subst h3; rfl
  by_cases h4 : a = ':'
  · subst h4; rfl
  by_cases h5 : a = ','
  · subst h5; rfl
  simp [propChain, pyReplaceChar, encP, h1, h2, h3, h4, h5]

/-- The five sequential replaces equal the single-pass encoding by `encP`. -/
theorem propChain_eq : ∀ l : List Char, propChain l = encodeWith encP l
  | [] => rfl
  | a :: l => by
      have hsplit : propChain (a :: l) = propChain [a] ++ propChain l :=
        propChain_append [a] l
      rw [hsplit, propChain_single a, propChain_eq l]
      rfl

/-- Every character encodes to a nonempty string. -/
theorem encP_ne_nil (c : Char) : encP c ≠ [] := by
  unfold encP
  split_ifs <;> simp

/-- A character is one of the five escaped ones, or encodes to itself and in
particular does not encode to a string starting with the escape character. -/
theorem encP_cases (c : Char) :
    c = '%' ∨ c = '\r' ∨ c = '\n' ∨ c = ':' ∨ c = ',' ∨ (encP c = [c] ∧ c ≠ '%') := by
  by_cases h1 : c = '%'
  · exact Or.inl h1
  by_cases h2 : c = '\r'
  · exact Or.inr (Or.inl h2)
  by_cases h3 : c = '\n'
  · exact Or.inr (Or.inr (Or.inl h3))
  by_cases h4 : c = ':'
  · exact Or.inr (Or.inr (Or.inr (Or.inl h4)))
  by_cases h5 : c = ','
  · exact Or.inr (Or.inr (Or.inr (Or.inr (Or.inl h5))))
  refine Or.inr (Or.inr (Or.inr (Or.inr (Or.inr ⟨?_, h1⟩))))
  simp [encP, h1, h2, h3, h4, h5]

/-- The code `encP` is prefix-identifying: equal encoded streams start with
the same character. -/
theorem encP_append_inj {a b : Char} {x y : List Char}
    (h : encP a ++ x = encP b ++ y) : a = b ∧ x = y := by
  rcases encP_cases a with rfl | rfl | rfl | rfl | rfl | ⟨ha, ha'⟩ <;>
    rcases encP_cases b with rfl | rfl | rfl | rfl | rfl | ⟨hb, hb'⟩ <;>
    simp_all [encP] <;>
    exact absurd h.1.symm hb'

/-- Streams encoded with `encP` are uniquely decodable. -/
theorem encodeWith_encP_inj : ∀ s t : List Char,
    encodeWith encP s = encodeWith encP t → s = t
  | [], [] => fun _ => rfl
  | [], b :: t => by
      intro h
      rw [encodeWith, encodeWith] at h
      exact absurd (List.append_eq_nil.mp h.symm).1 (encP_ne_nil b)
  | a :: s, [] => by
      intro h
      rw [encodeWith, encodeWith] at h
      exact absurd (List.append_eq_nil.mp h).1 (encP_ne_nil a)
  | a :: s, b :: t => by
      intro h
      rw [encodeWith, encodeWith] at h
      obtain ⟨rfl, h2⟩ := encP_append_inj h
      rw [encodeWith_encP_inj s t h2]

/-- The `escape_data` replacement chain distributes over concatenation. -/
theorem dataChain_append (x y : List Char) :
    dataChain (x ++ y) = dataChain x ++ dataChain y := by
  simp only [dataChain, pyReplaceChar_append]

/-- On a single character the `escape_data` chain is the code `encD`. -/
theorem dataChain_single (a : Char) : dataChain [a] = encD a := by
  by_cases h1 : a = '%'
  · subst h1; rfl
  by_cases h2 : a = '\r'
  · subst h2; rfl
  by_cases h3 : a = '\n'
  · subst h3; rfl
  simp [dataChain, pyReplaceChar, encD, h1, h2, h3]

/-- The three sequential replaces equal the single-pass encoding by `encD`. -/
theorem dataChain_eq : ∀ l : List Char, dataChain l = encodeWith encD l
  | [] => rfl
  | a :: l => by
      have hsplit : dataChain (a :: l) = dataChain [a] ++ dataChain l :=
        dataChain_append [a] l
      rw [hsplit, dataChain_single a, dataChain_eq l]
      rfl

/-- Every character `encD`-encodes to a nonempty string. -/
theorem encD_ne_nil (c : Char) : encD c ≠ [] := by
  unfold encD
  split_ifs <;> simp

/-- A character is one of the three `escape_data`-escaped ones, or encodes
to itself (and is not the escape character). -/
theorem encD_cases (c : Char) :
    c = '%' ∨ c = '\r' ∨ c = '\n' ∨ (encD c = [c] ∧ c ≠ '%') := by
  by_cases h1 : c = '%'
  · exact Or.inl h1
  by_cases h2 : c = '\r'
  · exact Or.inr (Or.inl h2)
  by_cases h3 : c = '\n'
  · exact Or.inr (Or.inr (Or.inl h3))
  refine Or.inr (Or.inr (Or.inr ⟨?_, h1⟩))
  simp [encD, h1, h2, h3]

/-- The code `encD` is prefix-identifying. -/
theorem encD_append_inj {a b : Char} {x y : List Char}
    (h : encD a ++ x = encD b ++ y) : a = b ∧ x = y := by
  rcases encD_cases a with rfl | rfl | rfl | ⟨ha, ha'⟩ <;>
    rcases encD_cases b with rfl | rfl | rfl | ⟨hb, hb'⟩ <;>
    simp_all [encD] <;>
    exact absurd h.1.symm hb'

/-- Streams encoded with `encD` are uniquely decodable. -/
theorem encodeWith_encD_inj : ∀ s t : List Char,
    encodeWith encD s = encodeWith encD t → s = t
  | [], [] => fun _ => rfl
  | [], b :: t => by
      intro h
      rw [encodeWith, encodeWith] at h
      exact absurd (List.append_eq_nil.mp h.symm).1 (encD_ne_nil b)
  | a :: s, [] => by
      intro h
      rw [encodeWith, encodeWith] at h
      exact absurd (List.append_eq_nil.mp h).1 (encD_ne_nil a)
  | a :: s, b :: t => by
      intro h
      rw [encodeWith, encodeWith] at h
      obtain ⟨rfl, h2⟩ := encD_append_inj h
      rw [encodeWith_encD_inj s t h2]

/-- C9: both `escape_property` and `escape_data` are injective — escaping
`%` to `%25` before the other substitutions makes every escaped output
decode to a unique input. -/
theorem escape_functions_injective :
    (∀ s t : String, escape_property s = escape_property t → s = t) ∧
      (∀ s t : String, escape_data s = escape_data t → s = t) := by
  constructor
  · intro s t h
    have h2 : propChain s.data = propChain t.data := congrArg String.data h
    rw [propChain_eq, propChain_eq] at h2
    exact congrArg String.mk (encodeWith_encP_inj s.data t.data h2)
  · intro s t h
    have h2 : dataChain s.data = dataChain t.data := congrArg String.data h
    rw [dataChain_eq, dataChain_eq] at h2
    exact congrArg String.mk (encodeWith_encD_inj s.data t.data h2)

/-- Closed instance of C9, applying both injectivity statements at a
concrete escaped collision candidate. -/
theorem escape_functions_injective_witness :
    ("a%:b" : String) = "a%:b" ∧ ("x%\ny" : String) = "x%\ny" :=
  ⟨escape_functions_injective.1 "a%:b" "a%:b" rfl,
   escape_functions_injective.2 "x%\ny" "x%\ny" rfl⟩
